import Mathlib

/-!
# kobo-rclone: a shallow embedding of the device-interaction state machine

This file embeds the Go program `krclone.go` (the current revision of
shermp/kobo-rclone) together with the concurrent status-reporter revision
(`fbInk`) found in the repository's historical sources, and proves the
spec claims C1..C10 against those definitions.

External effects (the mount table, the FBInk button scanner, the SQLite
handle, the filesystem) are modelled as environments: a poll of the mount
table is a `Nat → Bool` giving the state seen by the i-th poll, the button
scanner is a `Nat → Option String` giving the raw error string of the i-th
scan attempt, and so on.  Each phase function returns the ordered list of
external operations it performs, so claims about ordering, presence and
absence of effects are statements about that trace.
-/

namespace KRclone

/-- Mountpoint constant `onboardMnt` of krclone.go. -/
def onboardMnt : String := "/mnt/onboard/"

/-- Mountpoint constant `tmpOnboardMnt` of krclone.go. -/
def tmpOnboardMnt : String := "/mnt/tmponboard/"

/-- Device constant `internalMemoryDev` of krclone.go. -/
def internalMemoryDev : String := "/dev/mmcblk0p3"

/-- Lock-file name constant `metaLockFile` of krclone.go. -/
def metaLockFile : String := "krmeta.lock"

/-- The SQL text prepared in `updateMetadata` (krclone.go line 241). -/
def updateSQL : String :=
  "UPDATE content SET Description=?, Series=?, SeriesNumber=? WHERE ContentID LIKE ?"

/-! ## Mount watcher (krclone.go lines 136-168)

`internalMemUnmounted` reads /proc/mounts; we model the sequence of its
return values as `u : Nat → Bool` (`u i` = value seen by the i-th call,
counting all calls made by one waiter from 0). -/

/-- Result of a bounded mount-state waiter: `success n` means the n-th poll
(1-based count, so `n` polls were performed) saw the desired state;
`timeout` means the iteration budget was exhausted. -/
inductive WaitResult where
  | success (polls : Nat)
  | timeout
deriving DecidableEq, Repr

/-- The shared polling loop of `waitForUnmount`/`waitForMount`
(krclone.go lines 150-155 / 161-166): for each remaining iteration, sleep
250ms, poll once, return success when the poll is positive.  `i` is the
index of the next poll, `fuel` the remaining iterations. -/
def pollLoop (p : Nat → Bool) : Nat → Nat → WaitResult
  | _, 0 => .timeout
  | i, fuel + 1 => if p i then .success (i + 1) else pollLoop p (i + 1) fuel

/-- Number of polls a finished waiter performed, given the iteration budget
it was started with. -/
def pollsPerformed : WaitResult → Nat → Nat
  | .success n, _ => n
  | .timeout, iterations => iterations

/-- `waitForUnmount` (krclone.go lines 148-157): iterations :=
(approxTimeout * 1000) / 250; poll `internalMemUnmounted` each iteration. -/
def waitForUnmount (unmounted : Nat → Bool) (approxTimeout : Nat) : WaitResult :=
  pollLoop unmounted 0 ((approxTimeout * 1000) / 250)

/-- `waitForMount` (krclone.go lines 159-168): same loop, but the poll
succeeds when `internalMemUnmounted` is false. -/
def waitForMount (unmounted : Nat → Bool) (approxTimeout : Nat) : WaitResult :=
  pollLoop (fun i => !(unmounted i)) 0 ((approxTimeout * 1000) / 250)

/-! ## Button scanner (krclone.go lines 175-187) -/

/-- `fbButtonScan` (krclone.go lines 175-187): translate the raw error
string of `gofbink.ButtonScan` (`none` = no error) into the program's
error message.  An unrecognised error string falls through both branches
and is reported as success, exactly as in the source. -/
def fbButtonScan (rawErr : Option String) : Option String :=
  match rawErr with
  | none => none
  | some e =>
    if e = "EXIT_FAILURE" then some "button not found"
    else if e = "ENOTSUP" then some "button press failure"
    else if e = "ENODEV" then some "touch event failure"
    else none

/-- Outcome of a button-scan retry loop: `pressed n` = the loop broke out
after `n` scan attempts with a successful press; `aborted n e` = the final
attempt (the n-th) still failed and the phase returns with error message
`e`. -/
inductive LoopOutcome where
  | pressed (attempts : Nat)
  | aborted (attempts : Nat) (errMsg : String)
deriving DecidableEq, Repr

/-- The button-scan retry loop shared by `syncBooks` (budget 120,
krclone.go lines 296-311) and `updateMetadata` (budget 10, lines 212-223):
for i in [0, budget): err := fbButtonScan(scan i); on the last iteration a
non-nil err aborts; a nil err breaks; otherwise sleep 500ms and retry.
`i` is the current index, `fuel` the remaining iterations
(`fuel = budget - i`). -/
def buttonLoopAux (scan : Nat → Option String) : Nat → Nat → LoopOutcome
  | i, 0 => .pressed i
  | i, fuel + 1 =>
    match fbButtonScan (scan i) with
    | none => .pressed (i + 1)
    | some e => if fuel = 0 then .aborted (i + 1) e else buttonLoopAux scan (i + 1) fuel

/-- A whole button-scan retry loop with the given attempt budget. -/
def buttonScanLoop (scan : Nat → Option String) (budget : Nat) : LoopOutcome :=
  buttonLoopAux scan 0 budget

/-! ## Series-index serialization (krclone.go line 247)

The source serializes `meta.SeriesIndex` with
`strconv.FormatFloat(x, 'f', -1, 64)`: decimal notation, shortest digit
string that round-trips.  We model the float value as the exact rational
it denotes; for a value with a short finite decimal expansion (every value
in the claims) the shortest round-tripping string is its minimal exact
decimal, which is what this function produces. -/

/-- Left-pad a digit string with zeros to length `k`. -/
def padZeros (s : String) (k : Nat) : String :=
  String.mk (List.replicate (k - s.length) '0') ++ s

/-- Model of `strconv.FormatFloat(x, 'f', -1, 64)` on the exact rational
value of the float: the minimal decimal string, no trailing zeros, no
decimal point for integral values.  `k` is the least number of decimal
places needed (the least `k` with `q.den ∣ 10^k`, which exists for every
value a float can take whose decimal expansion terminates within the
searched range); `m` is `|q| * 10^k` as an integer. -/
def formatFloat (q : ℚ) : String :=
  match (List.range 64).find? (fun k => (10 : Nat) ^ k % q.den = 0) with
  | none => ""
  | some k =>
    let sign : String := if q.num < 0 then "-" else ""
    let m : Nat := q.num.natAbs * 10 ^ k / q.den
    if k = 0 then sign ++ toString m
    else sign ++ toString (m / 10 ^ k) ++ "." ++ padZeros (toString (m % 10 ^ k)) k

/-! ## Metadata records (krclone.go lines 58-63) -/

/-- `BookMetadata` (krclone.go lines 58-63), the parsed form of one entry
of the `.metadata.calibre` sidecar.  `seriesIndex` is the exact rational
value of the `series_index` float. -/
structure BookMetadata where
  lpath : String
  series : String
  seriesIndex : ℚ
  comments : String
deriving DecidableEq, Repr

/-! ## The metadata sidecar decode (encoding/json semantics)

`updateMetadata` decodes the sidecar with `json.Unmarshal(mdJSON, &metadata)`
and discards the error (krclone.go line 207).  Go's `Unmarshal` validates
the syntax of the whole input first — a syntax error populates nothing —
then decodes as much as it can: a top-level value that is not an array
leaves the slice untouched, while a well-formed array populates one slice
element per array element, an element that is not an object, or an object
field of mismatched type, contributing the zero value for that slot or
field (the first such mismatch also being returned as the error the caller
discards).  A sidecar document is an `Option Jval`: `none` stands for
content that is not valid JSON. -/

/-- A JSON value; numbers carry their exact rational value. -/
inductive Jval where
  | jnull
  | jbool (b : Bool)
  | jnum (q : ℚ)
  | jstr (s : String)
  | jarr (elems : List Jval)
  | jobj (fields : List (String × Jval))

/-- The zero value of `BookMetadata`: what an untouched slice element or
field holds. -/
def zeroBook : BookMetadata := ⟨"", "", 0, ""⟩

/-- One object field assigned into a record, in input order, as Go's
object decoder does: a known key whose value has the declared type
overwrites the field; an unknown key, a null value (a decoding no-op) or
a mismatched type leaves the record unchanged (a mismatch also produces
the discarded error).  Keys are matched exactly; encoding/json's
case-insensitive fallback never differs on this program's all-lowercase
tags. -/
def assignField (m : BookMetadata) : String × Jval → BookMetadata
  | ("lpath", .jstr s) => { m with lpath := s }
  | ("series", .jstr s) => { m with series := s }
  | ("series_index", .jnum q) => { m with seriesIndex := q }
  | ("comments", .jstr s) => { m with comments := s }
  | _ => m

/-- One array element decoded into a record: an object folds its fields
over the zero value; any other element leaves the slot at the zero value
(and produces a discarded type error). -/
def decodeBook : Jval → BookMetadata
  | .jobj fields => fields.foldl assignField zeroBook
  | _ => zeroBook

/-- What `json.Unmarshal` populates into the records slice for a given
sidecar document: nothing for invalid JSON, a null or another non-array
top-level value; one record per element for a well-formed array.  The
populated slice can be non-empty even when `Unmarshal` also returned an
error — partial decoding completes. -/
def unmarshalBooks : Option Jval → List BookMetadata
  | some (.jarr elems) => elems.map decodeBook
  | _ => []

/-- Whether a field value conforms to the declared type of its key (null
conforms to everything: it is a decoding no-op without error). -/
def fieldOK : String × Jval → Bool
  | (k, v) =>
    if k = "lpath" ∨ k = "series" ∨ k = "comments" then
      match v with
      | .jstr _ => true
      | .jnull => true
      | _ => false
    else if k = "series_index" then
      match v with
      | .jnum _ => true
      | .jnull => true
      | _ => false
    else true

/-- Whether an array element is a conforming metadata record: an object
all of whose known fields carry values of the declared types. -/
def recordOK : Jval → Bool
  | .jobj fields => fields.all fieldOK
  | _ => false

/-- Whether `json.Unmarshal` into the records slice returns no error:
the content is valid JSON whose top-level value is an array of conforming
records (or null, a no-op).  The sidecar "parses as a JSON array of
metadata records" exactly when this holds. -/
def unmarshalOK : Option Jval → Bool
  | some (.jarr elems) => elems.all recordOK
  | some .jnull => true
  | _ => false

/-! ## Operation traces

Each phase function is embedded as a function from its environment (the
results the outside world hands each external call) to the ordered list
of external operations it performs.  `fatalExit` marks `log.Fatal` inside
`chkErrFatal`: the process dies there, so it is always the last trace
element. -/

/-- One external operation of a phase, in program order. -/
inductive MetaOp where
  | chdir (path : String)
  | removeFile (path : String)
  | openFile (path : String)
  | fbPrintOp (msg : String)
  | usbPlug
  | usbUnplug
  | btnScanOp (press : Bool)
  | sleepMs (ms : Nat)
  | waitUnmountOp (res : WaitResult)
  | waitMountOp (res : WaitResult)
  | mkdirAll (path : String)
  | mountOp (dev mnt fstype : String)
  | dbOpenOp (dsn : String)
  | dbPrepare (sql : String)
  | sqlExec (description series seriesIndex pattern : String)
  | dbClose
  | unmountOp (mnt : String)
  | createFile (path : String)
  | runSync (remote : String)
  | fatalExit
deriving DecidableEq, Repr

/-- The scan/sleep operations of `n` attempts of the `updateMetadata`
button loop (krclone.go lines 212-223): a 500ms sleep separates
consecutive scans; the final scan is followed by nothing (the loop breaks,
aborts or falls through right after it). -/
def metaScanOps (n : Nat) : List MetaOp :=
  (List.range n).flatMap (fun i =>
    if i = 0 then [.btnScanOp true] else [.sleepMs 500, .btnScanOp true])

/-- The on-screen progress line of the `syncBooks` button loop
(krclone.go line 307). -/
def waitingMsg (i : Nat) : String :=
  "We've been waiting for " ++ toString i ++ " iterations"

/-- The scan/print/sleep operations of `n` attempts of the `syncBooks`
button loop (krclone.go lines 296-311): after a failed non-final attempt
`i`, the progress line is printed when `i` is even, then the loop sleeps
500ms and scans again. -/
def syncScanOps (n : Nat) : List MetaOp :=
  (List.range n).flatMap (fun i =>
    if i = 0 then [.btnScanOp true]
    else
      (if (i - 1) % 2 = 0 then [.fbPrintOp (waitingMsg (i - 1))] else []) ++
        [.sleepMs 500, .btnScanOp true])

/-- Path of the metadata sidecar opened by `updateMetadata`
(krclone.go line 195), for `ksDir = onboardMnt`-rooted book dir.  The
trace records the equivalent of `filepath.Join(ksDir, ".metadata.calibre")`. -/
def calibreMDpath (ksDir : String) : String := ksDir ++ ".metadata.calibre"

/-- DSN of the Kobo database opened by `updateMetadata`
(krclone.go lines 233-234). -/
def koboDSN : String :=
  "file:" ++ tmpOnboardMnt ++ ".kobo/KoboReader.sqlite" ++ "?cache=shared&mode=rw"

/-- The environment of one `updateMetadata` run: what each external call
returns, in the order the code makes them. -/
structure MetaEnv where
  /-- whether `os.OpenFile` on the sidecar succeeds (krclone.go line 196) -/
  mdFileOpens : Bool
  /-- what `json.Unmarshal` populated into the records slice (krclone.go
  line 207): `some l` when the decode assigned the slice `l` — Go
  completes partial decoding, so `l` can be non-empty (with zero-valued
  or partially-filled records) even when an error was also returned,
  which the code discards; `none` when nothing was populated (content
  that is not valid JSON, or whose top-level value is not an array),
  leaving the slice its zero value.  `unmarshalBooks` computes the
  populated slice of a sidecar document. -/
  mdParse : Option (List BookMetadata)
  /-- raw `gofbink.ButtonScan` error of the i-th scan attempt -/
  scan : Nat → Option String
  /-- `internalMemUnmounted` as seen by the polls of the first
  `waitForUnmount(10)` (krclone.go line 225) -/
  unmounted1 : Nat → Bool
  /-- whether `syscall.Mount` succeeds (krclone.go line 230) -/
  mountOK : Bool
  /-- error message when the mount fails -/
  mountErrMsg : String
  /-- whether `sql.Open` succeeds (krclone.go line 235) -/
  dbOpenOK : Bool
  /-- error message when `sql.Open` fails -/
  dbOpenErrMsg : String
  /-- whether `db.Prepare` succeeds (krclone.go line 241) -/
  prepareOK : Bool
  /-- error message when `db.Prepare` fails -/
  prepareErrMsg : String
  /-- whether `stmt.Exec` for the i-th metadata record succeeds -/
  execOK : Nat → Bool
  /-- `internalMemUnmounted` as seen by the polls of the second
  `waitForUnmount(10)` (krclone.go line 266) -/
  unmounted2 : Nat → Bool

/-- The per-record database updates of `updateMetadata`
(krclone.go lines 243-258), as trace operations: a record with an empty
`lpath` issues nothing; any other record issues exactly one `sqlExec`
with parameters (comments, series, formatted series index, "%"+lpath),
followed by the per-row success/error status line.  `i` numbers the
records for `execOK`. -/
def execOps (execOK : Nat → Bool) : Nat → List BookMetadata → List MetaOp
  | _, [] => []
  | i, meta :: rest =>
    (if meta.lpath ≠ "" then
      [.sqlExec meta.comments meta.series (formatFloat meta.seriesIndex)
          ("%" ++ meta.lpath),
        .fbPrintOp (if execOK i then "MD Success" else "MD Error")]
    else []) ++ execOps execOK (i + 1) rest

/-- The trace of `updateMetadata` (krclone.go lines 190-277) from the
mount/unmount pairing onwards: everything after the first
`waitForUnmount(10)` succeeded.  Split out so the claims about the
mount/unmount discipline can name the exact exit paths. -/
def updateMetadataMounted (env : MetaEnv) (metadata : List BookMetadata) : List MetaOp :=
  if env.mountOK then
    .mountOp internalMemoryDev tmpOnboardMnt "vfat" ::
      .dbOpenOp koboDSN ::
        if !env.dbOpenOK then
          -- sql.Open failed: print the error and return (krclone.go 236-239).
          [.fbPrintOp env.dbOpenErrMsg]
        else
          .dbPrepare updateSQL ::
            (if env.prepareOK then execOps env.execOK 0 metadata
              else [.fbPrintOp env.prepareErrMsg]) ++
              .dbClose :: .unmountOp tmpOnboardMnt ::
                match waitForUnmount env.unmounted2 10 with
                | .timeout =>
                  [.waitUnmountOp .timeout,
                    .fbPrintOp "The Filesystem did not unmount. Aborting!", .fatalExit]
                | .success k =>
                  [.waitUnmountOp (.success k), .usbUnplug, .fbPrintOp "Metadata updated!"]
  else [.fbPrintOp env.mountErrMsg]

/-- The trace of `updateMetadata` (krclone.go lines 190-277).  `ksDir` is
the book directory whose sidecar is read. -/
def updateMetadata (ksDir : String) (env : MetaEnv) : List MetaOp :=
  .chdir "/" :: .removeFile metaLockFile :: .openFile (calibreMDpath ksDir) ::
    if !env.mdFileOpens then
      [.fbPrintOp "Could not open Metadata File... Aborting!"]
    else
      -- json.Unmarshal's error is discarded; on a parse failure the
      -- records slice keeps its zero value (krclone.go lines 206-207).
      let metadata := env.mdParse.getD []
      if 0 < metadata.length then
        .fbPrintOp "Updating Metadata..." :: .usbPlug ::
          match buttonScanLoop env.scan 10 with
          | .aborted n e => metaScanOps n ++ [.fbPrintOp e]
          | .pressed n =>
            metaScanOps n ++
              match waitForUnmount env.unmounted1 10 with
              | .timeout =>
                [.waitUnmountOp .timeout,
                  .fbPrintOp "The Filesystem did not unmount. Aborting!", .fatalExit]
              | .success k =>
                .waitUnmountOp (.success k) :: .mkdirAll tmpOnboardMnt ::
                  updateMetadataMounted env metadata
      else [.fbPrintOp "No metadata to update!"]

/-- `strings.HasSuffix(rcRemote, ":")` (krclone.go line 281), decided on
the character list: a string ends with the one-character suffix ":" iff
its last character is ':'. -/
def hasSuffixColon (s : String) : Bool := s.data.getLast? == some ':'

/-- The trace of `syncBooks` (krclone.go lines 280-320).  `syncOK` is the
exit status of the rclone subprocess, `scan` the raw button-scan results,
`unmounted` the mount-table polls of the final `waitForMount(30)`. -/
def syncBooks (rcRemote : String) (syncOK : Bool) (scan : Nat → Option String)
    (unmounted : Nat → Bool) : List MetaOp :=
  let rcRemote := if hasSuffixColon rcRemote then rcRemote else rcRemote ++ ":"
  .fbPrintOp "Starting Sync... Please wait." :: .runSync rcRemote ::
    if !syncOK then [.fbPrintOp "Sync failed. Aborting!"]
    else
      .fbPrintOp "Simulating USB... Please wait." :: .usbPlug ::
        match buttonScanLoop scan 120 with
        | .aborted n e => syncScanOps n ++ [.fbPrintOp e]
        | .pressed n =>
          syncScanOps n ++
            [.sleepMs 5000, .usbUnplug,
              .fbPrintOp "Done! Please rerun to update metadata.",
              -- the result of waitForMount(30) is discarded (krclone.go 315)
              .waitMountOp (waitForMount unmounted 30),
              .createFile metaLockFile, .fbPrintOp " "]

/-! ## Status reporter

Two revisions of the rolling message buffer exist in the sources: the
direct `fbPrint` of krclone.go (lines 92-109, append-only) and the
channel-driven `fbInk` task of the concurrent revision
(src/unnamed/part_002 lines 344-386), which additionally supports
replace-last-line spinner messages.  Both keep at most 5 lines. -/

/-- The buffer update of `fbPrint` (krclone.go lines 93-97): evict the
front element when the buffer already holds 5 or more lines, then append
the new line at the back. -/
def fbPrintBuffer (buf : List String) (str : String) : List String :=
  (if 5 ≤ buf.length then buf.tail else buf) ++ [str]

/-- One message of the `fbInk` channel (src/unnamed/part_002 lines
311-315): `printStr` with either the replace-last-line flag or the
button-scan flag (a button-scan request leaves the buffer untouched). -/
structure FbinkData where
  updateLastStr : Bool
  buttonScan : Bool
  printStr : String
deriving DecidableEq, Repr

/-- `getNextWorkingIcon` (src/unnamed/part_002 lines 334-342). -/
def getNextWorkingIcon (workingIcon : String) : String :=
  if workingIcon = "(.  )" then "(.. )"
  else if workingIcon = "(.. )" then "(...)"
  else "(.  )"

/-- The state owned by the `fbInk` task: the rolling message buffer and
the current spinner icon. -/
structure FbInkState where
  buffer : List String
  workingIcon : String
deriving DecidableEq, Repr

/-- One iteration of the `fbInk` receive loop (src/unnamed/part_002 lines
357-379), restricted to its effect on the task state: an append message
first evicts the front when 5 or more lines are buffered; a
replace-last-line message advances the spinner icon and replaces the back
line with `printStr` plus the icon; a button-scan request does not touch
the buffer. -/
def fbInkStep (st : FbInkState) (d : FbinkData) : FbInkState :=
  if !d.buttonScan then
    if !d.updateLastStr then
      { st with buffer :=
          (if 5 ≤ st.buffer.length then st.buffer.tail else st.buffer) ++ [d.printStr] }
    else
      let icon := getNextWorkingIcon st.workingIcon
      { buffer := st.buffer.dropLast ++ [d.printStr ++ " " ++ icon], workingIcon := icon }
  else st

/-- The initial `fbInk` state (src/unnamed/part_002 lines 345-354): one
blank line is pushed before the receive loop starts. -/
def fbInkInit : FbInkState := { buffer := [" "], workingIcon := "(...)" }

/-- The `fbInk` task state after consuming a sequence of channel
messages. -/
def fbInkRun (msgs : List FbinkData) : FbInkState :=
  msgs.foldl fbInkStep fbInkInit

/-! ## Helper predicates on trace operations -/

/-- Whether an operation is the creation of a file (`os.Create`). -/
def MetaOp.isCreateFile : MetaOp → Bool
  | .createFile _ => true
  | _ => false

/-- Whether an operation is a database row update (`stmt.Exec`). -/
def MetaOp.isSqlExec : MetaOp → Bool
  | .sqlExec _ _ _ _ => true
  | _ => false

/-- Whether an operation is the private remount (`syscall.Mount`). -/
def MetaOp.isMountOp : MetaOp → Bool
  | .mountOp _ _ _ => true
  | _ => false

/-- Whether an operation is an unmount (`syscall.Unmount`). -/
def MetaOp.isUnmountOp : MetaOp → Bool
  | .unmountOp _ => true
  | _ => false

/-- Whether an operation is a USB plug or unplug signal. -/
def MetaOp.isUsbSignal : MetaOp → Bool
  | .usbPlug => true
  | .usbUnplug => true
  | _ => false

/-- Whether an operation is the `log.Fatal` process abort. -/
def MetaOp.isFatalExit : MetaOp → Bool
  | .fatalExit => true
  | _ => false

/-! ## Concrete witness data

Environments and records used by the closed witness and counterexample
statements further down. -/

/-- A concrete `updateMetadata` environment for witnesses: every external
call succeeds (the button scan on the first attempt, both unmount waits
on the first poll) and the sidecar parses to `md`. -/
def happyEnv (md : Option (List BookMetadata)) : MetaEnv where
  mdFileOpens := true
  mdParse := md
  scan := fun _ => none
  unmounted1 := fun _ => true
  mountOK := true
  mountErrMsg := "mount error"
  dbOpenOK := true
  dbOpenErrMsg := "db open error"
  prepareOK := true
  prepareErrMsg := "prepare error"
  execOK := fun _ => true
  unmounted2 := fun _ => true

/-- Environment of the C2 counterexample: everything succeeds up to and
including the private mount, then `sql.Open` fails. -/
def envDbOpenFails : MetaEnv where
  mdFileOpens := true
  mdParse := some [⟨"book.epub", "S", 3, "c"⟩]
  scan := fun _ => none
  unmounted1 := fun _ => true
  mountOK := true
  mountErrMsg := "mount error"
  dbOpenOK := false
  dbOpenErrMsg := "unable to open database file"
  prepareOK := true
  prepareErrMsg := "prepare error"
  execOK := fun _ => true
  unmounted2 := fun _ => true

/-- The row update issued for one record with a non-empty `lpath`
(krclone.go lines 250-251): parameters are, in order, the comments
(Description), the series, the serialized series index, and the LIKE
pattern "%" + lpath. -/
def rowUpdate (meta : BookMetadata) : Option MetaOp :=
  if meta.lpath = "" then none
  else some (.sqlExec meta.comments meta.series (formatFloat meta.seriesIndex)
    ("%" ++ meta.lpath))

/-- Concrete records for the witnesses: a plain record, a record with an
empty `lpath` (skipped), and a record with empty series, zero index and
empty comments (still updated). -/
def sampleBooks : List BookMetadata :=
  [⟨"Book One.epub", "Series A", 3, "A comment"⟩,
    ⟨"", "Series B", mkRat 5 2, "skipped"⟩,
    ⟨"two.epub", "", 0, ""⟩]

/-- A readable sidecar whose content is well-formed JSON but **not** an
array of metadata records: the second element is the number 5.
`json.Unmarshal` returns a type error for it, yet populates two records:
the first with `lpath = "a.epub"`, the second zero-valued. -/
def badSidecarDoc : Option Jval :=
  some (.jarr [.jobj [("lpath", .jstr "a.epub")], .jnum 5])

/-- The C10 counterexample environment: the records slice is exactly what
`json.Unmarshal` populates for `badSidecarDoc`, and every later external
call succeeds. -/
def envPartialDecode : MetaEnv := happyEnv (some (unmarshalBooks badSidecarDoc))

/-! ## Mount-watcher lemmas -/

/-- A successful poll loop: the successful poll is within the budget, the
state it saw is positive, and every earlier poll saw a negative state. -/
theorem pollLoop_success (p : Nat → Bool) :
    ∀ (fuel i n : Nat), pollLoop p i fuel = .success n →
      i < n ∧ n ≤ i + fuel ∧ p (n - 1) = true ∧ ∀ j, i ≤ j → j < n - 1 → p j = false := by
  intro fuel
  induction fuel with
  | zero => intro i n h; simp [pollLoop] at h
  | succ fuel ih =>
    intro i n h
    rw [pollLoop] at h
    by_cases hp : p i
    · simp only [hp, if_true, WaitResult.success.injEq] at h
      subst h
      refine ⟨Nat.lt_succ_self i, by omega, by simpa using hp, ?_⟩
      intro j hij hjn
      omega
    · simp only [hp, if_false] at h
      obtain ⟨h1, h2, h3, h4⟩ := ih (i + 1) n h
      refine ⟨by omega, by omega, h3, ?_⟩
      intro j hij hjn
      rcases Nat.eq_or_lt_of_le hij with rfl | hlt
      · simpa using hp
      · exact h4 j hlt hjn

/-- A poll loop whose every poll sees a negative state times out. -/
theorem pollLoop_timeout (p : Nat → Bool) :
    ∀ (fuel i : Nat), (∀ j, i ≤ j → j < i + fuel → p j = false) →
      pollLoop p i fuel = .timeout := by
  intro fuel
  induction fuel with
  | zero => intro i _; rfl
  | succ fuel ih =>
    intro i h
    rw [pollLoop]
    have hp : p i = false := h i le_rfl (by omega)
    simp only [hp, Bool.false_eq_true, if_false]
    exact ih (i + 1) (fun j hj1 hj2 => h j (by omega) (by omega))

/-- C4: with the fixed 250ms poll interval, `waitForUnmount T` and
`waitForMount T` poll the mount table at most `(T*1000)/250` times,
return success only when a poll actually saw the desired state (and no
earlier poll did), and time out when no poll within the budget saw it.
`u i` is the value `internalMemUnmounted` returns at the i-th poll. -/
theorem waiters_poll_bounded (T : Nat) (u : Nat → Bool) :
    pollsPerformed (waitForUnmount u T) ((T * 1000) / 250) ≤ (T * 1000) / 250 ∧
    pollsPerformed (waitForMount u T) ((T * 1000) / 250) ≤ (T * 1000) / 250 ∧
    (∀ n, waitForUnmount u T = .success n →
      0 < n ∧ n ≤ (T * 1000) / 250 ∧ u (n - 1) = true ∧ ∀ j, j < n - 1 → u j = false) ∧
    ((∀ i, i < (T * 1000) / 250 → u i = false) → waitForUnmount u T = .timeout) ∧
    (∀ n, waitForMount u T = .success n →
      0 < n ∧ n ≤ (T * 1000) / 250 ∧ u (n - 1) = false ∧ ∀ j, j < n - 1 → u j = true) ∧
    ((∀ i, i < (T * 1000) / 250 → u i = true) → waitForMount u T = .timeout) := by
  have hU : ∀ n, waitForUnmount u T = .success n →
      0 < n ∧ n ≤ (T * 1000) / 250 ∧ u (n - 1) = true ∧ ∀ j, j < n - 1 → u j = false := by
    intro n h
    obtain ⟨h1, h2, h3, h4⟩ := pollLoop_success u ((T * 1000) / 250) 0 n h
    exact ⟨h1, by omega, h3, fun j hj => h4 j (Nat.zero_le j) hj⟩
  have hM : ∀ n, waitForMount u T = .success n →
      0 < n ∧ n ≤ (T * 1000) / 250 ∧ u (n - 1) = false ∧ ∀ j, j < n - 1 → u j = true := by
    intro n h
    obtain ⟨h1, h2, h3, h4⟩ :=
      pollLoop_success (fun i => !(u i)) ((T * 1000) / 250) 0 n h
    refine ⟨h1, by omega, by simpa using h3, fun j hj => ?_⟩
    have := h4 j (Nat.zero_le j) hj
    simpa using this
  refine ⟨?_, ?_, hU, ?_, hM, ?_⟩
  · cases h : waitForUnmount u T with
    | success n => exact (hU n h).2.1
    | timeout => exact le_rfl
  · cases h : waitForMount u T with
    | success n => exact (hM n h).2.1
    | timeout => exact le_rfl
  · intro h
    exact pollLoop_timeout u ((T * 1000) / 250) 0 (fun j _ hj => h j (by omega))
  · intro h
    refine pollLoop_timeout (fun i => !(u i)) ((T * 1000) / 250) 0 (fun j _ hj => ?_)
    simp [h j (by omega)]

/-! ## Button-scan retry loop lemmas -/

/-- An aborted button loop always consumed its whole budget: the abort
check `i == budget-1 && err != nil` only fires on the final iteration. -/
theorem buttonLoopAux_aborted_attempts (scan : Nat → Option String) :
    ∀ (fuel i n : Nat) (e : String),
      buttonLoopAux scan i fuel = .aborted n e → n = i + fuel := by
  intro fuel
  induction fuel with
  | zero => intro i n e h; simp [buttonLoopAux] at h
  | succ fuel ih =>
    intro i n e h
    rw [buttonLoopAux] at h
    cases hscan : fbButtonScan (scan i) with
    | none => rw [hscan] at h; simp at h
    | some e2 =>
      rw [hscan] at h
      by_cases hf : fuel = 0
      · subst hf
        simp only [if_true, LoopOutcome.aborted.injEq] at h
        omega
      · simp only [hf, if_false] at h
        have := ih (i + 1) n e h
        omega

/-- A button loop whose every attempt fails (with any of the three error
kinds) runs its entire budget and then aborts with the error message of
the final attempt. -/
theorem buttonLoopAux_allFail (scan : Nat → Option String) :
    ∀ (fuel i : Nat), 0 < fuel →
      (∀ j, i ≤ j → j < i + fuel → fbButtonScan (scan j) ≠ none) →
      ∀ e, fbButtonScan (scan (i + fuel - 1)) = some e →
        buttonLoopAux scan i fuel = .aborted (i + fuel) e := by
  intro fuel
  induction fuel with
  | zero => intro i h; omega
  | succ fuel ih =>
    intro i _ hall e hlast
    rw [buttonLoopAux]
    cases hscan : fbButtonScan (scan i) with
    | none => exact absurd hscan (hall i le_rfl (by omega))
    | some e2 =>
      by_cases hf : fuel = 0
      · subst hf
        have : e2 = e := by
          have : i + 1 - 1 = i := by omega
          rw [this] at hlast
          rw [hscan] at hlast
          exact Option.some.inj hlast
        subst this
        simp
      · simp only [hf, if_false]
        have h1 : buttonLoopAux scan (i + 1) fuel = .aborted (i + 1 + fuel) e := by
          refine ih (i + 1) (by omega) (fun j hj1 hj2 => hall j (by omega) (by omega)) e ?_
          have : i + 1 + fuel - 1 = i + (fuel + 1) - 1 := by omega
          rw [this]
          exact hlast
        rw [h1]
        have : i + 1 + fuel = i + (fuel + 1) := by omega
        rw [this]

/-- A button loop whose first successful attempt is the k-th (0-based)
attempt, within budget, breaks out right after it. -/
theorem buttonLoopAux_firstSuccess (scan : Nat → Option String) :
    ∀ (fuel i k : Nat), i ≤ k → k < i + fuel →
      fbButtonScan (scan k) = none →
      (∀ j, i ≤ j → j < k → fbButtonScan (scan j) ≠ none) →
      buttonLoopAux scan i fuel = .pressed (k + 1) := by
  intro fuel
  induction fuel with
  | zero => intro i k h1 h2; omega
  | succ fuel ih =>
    intro i k hik hk hkscan hbefore
    rw [buttonLoopAux]
    rcases Nat.eq_or_lt_of_le hik with rfl | hlt
    · rw [hkscan]
    · cases hscan : fbButtonScan (scan i) with
      | none => exact absurd hscan (hbefore i le_rfl hlt)
      | some e =>
        have hf : fuel ≠ 0 := by omega
        simp only [hf, if_false]
        exact ih (i + 1) k hlt (by omega) hkscan
          (fun j hj1 hj2 => hbefore j (by omega) hj2)

/-- C3 (amended): in every button-scan retry loop, every failing attempt
— whether the button was merely not found or the touch capability failed
hard — is retried after the delay; no error kind stops the loop early.
The loop aborts only by exhausting its whole attempt budget, and then it
surfaces the error message of the final attempt; the first successful
attempt within the budget stops the loop with a press. -/
theorem buttonScanLoop_retry_policy (scan : Nat → Option String) (b : Nat) :
    (∀ n e, buttonScanLoop scan (b + 1) = .aborted n e → n = b + 1) ∧
    ((∀ j, j < b + 1 → fbButtonScan (scan j) ≠ none) →
      ∀ e, fbButtonScan (scan b) = some e →
        buttonScanLoop scan (b + 1) = .aborted (b + 1) e) ∧
    (∀ k, k ≤ b → fbButtonScan (scan k) = none →
      (∀ j, j < k → fbButtonScan (scan j) ≠ none) →
      buttonScanLoop scan (b + 1) = .pressed (k + 1)) := by
  refine ⟨?_, ?_, ?_⟩
  · intro n e h
    have := buttonLoopAux_aborted_attempts scan (b + 1) 0 n e h
    omega
  · intro hall e hlast
    have := buttonLoopAux_allFail scan (b + 1) 0 (by omega)
      (fun j hj1 hj2 => hall j (by omega)) e (by simpa using hlast)
    simpa using this
  · intro k hk hkscan hbefore
    exact buttonLoopAux_firstSuccess scan (b + 1) 0 k (Nat.zero_le k) (by omega)
      hkscan (fun j hj1 hj2 => hbefore j hj2)

/-- C3 (counterexample): in the `updateMetadata` retry loop (budget 10),
a touch-capability hard failure (`ENODEV`, "touch event failure") on
every attempt does **not** stop the loop at the first attempt: the loop
still performs all 10 attempts before surfacing the error. -/
theorem buttonScanLoop_hard_failure_not_immediate :
    buttonScanLoop (fun _ => some "ENODEV") 10 = .aborted 10 "touch event failure" ∧
    buttonScanLoop (fun _ => some "ENODEV") 10 ≠ .aborted 1 "touch event failure" := by
  decide

/-! ## Sync phase: the marker and waitForMount -/

/-- C1 (counterexample): a sync run in which the subprocess succeeds, the
connect button is pressed on the first attempt, and the internal
partition never comes back (`internalMemUnmounted` is true at every poll,
so `waitForMount(30)` times out) still creates the PhaseMarker file: the
code discards `waitForMount`'s result (krclone.go line 315) and runs
`os.Create` unconditionally (line 317), so the marker is **not** created
"if and only if waitForMount returns success". -/
theorem syncBooks_creates_marker_despite_timeout :
    MetaOp.waitMountOp .timeout ∈ syncBooks "kr" true (fun _ => none) (fun _ => true) ∧
    MetaOp.createFile metaLockFile ∈ syncBooks "kr" true (fun _ => none) (fun _ => true) := by
  decide

/-- C1 (amended): after the sync subprocess succeeds and the
USB-disconnect is signalled, `waitForMount` is called with a 30-second
timeout, but its result is discarded: the PhaseMarker file is created
unconditionally afterwards, also when `waitForMount` timed out, and no
error is propagated (the trace continues with the final status line). -/
theorem syncBooks_marker_unconditional (rcRemote : String) (scan : Nat → Option String)
    (unmounted : Nat → Bool) (n : Nat) (h : buttonScanLoop scan 120 = .pressed n) :
    syncBooks rcRemote true scan unmounted =
      .fbPrintOp "Starting Sync... Please wait." ::
        .runSync (if hasSuffixColon rcRemote then rcRemote else rcRemote ++ ":") ::
          .fbPrintOp "Simulating USB... Please wait." :: .usbPlug ::
            (syncScanOps n ++
              [.sleepMs 5000, .usbUnplug,
                .fbPrintOp "Done! Please rerun to update metadata.",
                .waitMountOp (waitForMount unmounted 30),
                .createFile metaLockFile, .fbPrintOp " "]) := by
  simp [syncBooks, h]

/-- C1 (witness): the amended statement at a concrete input on which the
button is pressed first try and the partition never remounts. -/
theorem syncBooks_marker_unconditional_witness :
    syncBooks "kr" true (fun _ => none) (fun _ => true) =
      [.fbPrintOp "Starting Sync... Please wait.", .runSync "kr:",
        .fbPrintOp "Simulating USB... Please wait.", .usbPlug, .btnScanOp true,
        .sleepMs 5000, .usbUnplug, .fbPrintOp "Done! Please rerun to update metadata.",
        .waitMountOp (waitForMount (fun _ => true) 30), .createFile metaLockFile,
        .fbPrintOp " "] := by
  rw [syncBooks_marker_unconditional "kr" (fun _ => none) (fun _ => true) 1 (by decide)]
  decide

/-! ## Metadata phase: the marker -/

/-- The per-record database operations create no file. -/
theorem execOps_no_createFile (f : Nat → Bool) :
    ∀ (i : Nat) (l : List BookMetadata),
      (execOps f i l).all (fun op => !op.isCreateFile) = true := by
  intro i l
  induction l generalizing i with
  | nil => rfl
  | cons m rest ih =>
    rw [execOps, List.all_append, ih (i + 1), Bool.and_true]
    split
    · split <;> rfl
    · rfl

/-- The button-loop operations create no file. -/
theorem metaScanOps_no_createFile (n : Nat) :
    (metaScanOps n).all (fun op => !op.isCreateFile) = true := by
  rw [metaScanOps, List.all_flatMap, List.all_eq_true]
  intro i _
  split <;> rfl

/-- The mounted section of `updateMetadata` creates no file. -/
theorem updateMetadataMounted_no_createFile (env : MetaEnv) (md : List BookMetadata) :
    (updateMetadataMounted env md).all (fun op => !op.isCreateFile) = true := by
  rw [updateMetadataMounted]
  split
  · simp only [List.all_cons, Bool.and_eq_true]
    refine ⟨rfl, rfl, ?_⟩
    split
    · rfl
    · simp only [List.all_append, List.all_cons, Bool.and_eq_true]
      refine ⟨⟨rfl, ?_⟩, rfl, rfl, ?_⟩
      · split
        · exact execOps_no_createFile env.execOK 0 md
        · rfl
      · split <;> rfl
  · rfl

/-- C5: every run of the Metadata Phase deletes the PhaseMarker file
unconditionally at entry — the trace starts with the chdir, the

`os.Remove` of the marker, and only then the open of the metadata
sidecar — and no operation of any run, on any path and whatever the
outcome, creates a file: the marker is never recreated. -/
theorem updateMetadata_marker_discipline (ksDir : String) (env : MetaEnv) :
    (updateMetadata ksDir env).take 3 =
      [.chdir "/", .removeFile metaLockFile, .openFile (calibreMDpath ksDir)] ∧
    (updateMetadata ksDir env).all (fun op => !op.isCreateFile) = true := by
  constructor
  · rfl
  · rw [updateMetadata]
    simp only [List.all_cons, Bool.and_eq_true]
    refine ⟨rfl, rfl, rfl, ?_⟩
    split
    · rfl
    · split
      · simp only [List.all_cons, Bool.and_eq_true]
        refine ⟨rfl, rfl, ?_⟩
        split
        · rw [List.all_append]
          rw [metaScanOps_no_createFile]
          rfl
        · rw [List.all_append, metaScanOps_no_createFile, Bool.true_and]
          split
          · rfl
          · simp only [List.all_cons, Bool.and_eq_true]
            exact ⟨rfl, rfl, updateMetadataMounted_no_createFile env _⟩
      · rfl

/-! ## Metadata phase: empty and unparsable sidecars -/


/-- C7: when the sidecar opens and parses to the empty list, the Metadata
Phase run is exactly: chdir, delete the marker, open the sidecar, report
"No metadata to update!" — so it issues zero database updates, performs
no USB signalling, no remount and no fatal abort, and returns normally. -/
theorem updateMetadata_empty_metadata (ksDir : String) (env : MetaEnv)
    (hopen : env.mdFileOpens = true) (hparse : env.mdParse = some []) :
    updateMetadata ksDir env =
      [.chdir "/", .removeFile metaLockFile, .openFile (calibreMDpath ksDir),
        .fbPrintOp "No metadata to update!"] ∧
    (updateMetadata ksDir env).all
      (fun op => !op.isSqlExec && !op.isUsbSignal && !op.isMountOp && !op.isFatalExit)
      = true := by
  have htrace : updateMetadata ksDir env =
      [.chdir "/", .removeFile metaLockFile, .openFile (calibreMDpath ksDir),
        .fbPrintOp "No metadata to update!"] := by
    rw [updateMetadata, hopen, hparse]
    rfl
  exact ⟨htrace, by rw [htrace]; rfl⟩

/-- C7 (witness): the empty-sidecar run at a concrete environment. -/
theorem updateMetadata_empty_metadata_witness :
    updateMetadata "/mnt/onboard/kr/" (happyEnv (some [])) =
      [.chdir "/", .removeFile metaLockFile, .openFile (calibreMDpath "/mnt/onboard/kr/"),
        .fbPrintOp "No metadata to update!"] ∧
    (updateMetadata "/mnt/onboard/kr/" (happyEnv (some []))).all
      (fun op => !op.isSqlExec && !op.isUsbSignal && !op.isMountOp && !op.isFatalExit)
      = true :=
  updateMetadata_empty_metadata "/mnt/onboard/kr/" (happyEnv (some [])) rfl rfl

/-- C10 (counterexample): the sidecar content `[{"lpath":"a.epub"},5]`
(`badSidecarDoc`) is readable and well-formed JSON but does **not** parse
as an array of metadata records — `json.Unmarshal` returns a type error
for the element 5.  Go nevertheless completes partial decoding: the
populated slice has two records, so the phase does **not** behave as for
an empty list: its trace differs from the four-op empty run, it signals
USB plug, and it even issues one database update for "a.epub".  The
original claim fails at this input. -/
theorem updateMetadata_partial_decode_not_empty :
    unmarshalOK badSidecarDoc = false ∧
    updateMetadata "/mnt/onboard/kr/" envPartialDecode ≠
      [.chdir "/", .removeFile metaLockFile, .openFile (calibreMDpath "/mnt/onboard/kr/"),
        .fbPrintOp "No metadata to update!"] ∧
    MetaOp.usbPlug ∈ updateMetadata "/mnt/onboard/kr/" envPartialDecode ∧
    (updateMetadata "/mnt/onboard/kr/" envPartialDecode).filter
        (fun op => op.isSqlExec) =
      [.sqlExec "" "" "0" "%a.epub"] := by
  decide

/-- C10 (amended): `json.Unmarshal`'s error is always discarded, and what
drives the phase is only the slice the decode populated.  When the
readable sidecar's content is not valid JSON, or its top-level value is
not a JSON array, nothing is populated and the phase behaves exactly as
for an empty list: zero database updates, no USB signalling or remount,
"No metadata to update!", and a normal (successful) return.  A
well-formed non-empty JSON array, however — even one whose elements are
not valid metadata records — populates one (possibly zero-valued) record
per element, and the phase proceeds into the update path, beginning with
the USB-plug signal. -/
theorem updateMetadata_unmarshal_error_paths (ksDir : String) (env : MetaEnv)
    (doc : Option Jval) (hopen : env.mdFileOpens = true)
    (hparse : env.mdParse = some (unmarshalBooks doc)) :
    ((∀ elems, doc ≠ some (.jarr elems)) →
      updateMetadata ksDir env =
        [.chdir "/", .removeFile metaLockFile, .openFile (calibreMDpath ksDir),
          .fbPrintOp "No metadata to update!"]) ∧
    (∀ elems, doc = some (.jarr elems) → elems ≠ [] →
      MetaOp.usbPlug ∈ updateMetadata ksDir env) := by
  constructor
  · intro hne
    have hempty : unmarshalBooks doc = [] := by
      cases doc with
      | none => rfl
      | some v =>
        cases v with
        | jarr elems => exact absurd rfl (hne elems)
        | jnull => rfl
        | jbool b => rfl
        | jnum q => rfl
        | jstr s => rfl
        | jobj fields => rfl
    have hparse2 : env.mdParse = some [] := by rw [hparse, hempty]
    rw [updateMetadata, hopen, hparse2]
    rfl
  · intro elems hdoc hne
    subst hdoc
    have hparse2 : env.mdParse = some (elems.map decodeBook) := hparse
    have hlen : 0 < (elems.map decodeBook).length := by
      rw [List.length_map]
      exact List.length_pos.mpr hne
    rw [updateMetadata, hopen]
    simp only [Bool.not_true, Bool.false_eq_true, if_false, ite_false]
    rw [hparse2]
    simp only [Option.getD_some, hlen, if_pos, ite_true]
    simp [List.mem_cons]

/-- C10 (witness): the amended statement at a concrete syntactically
invalid sidecar (`doc = none`): the populated slice is empty and the run
is the four-op empty behaviour. -/
theorem updateMetadata_unmarshal_error_paths_witness :
    ((∀ elems, (none : Option Jval) ≠ some (.jarr elems)) →
      updateMetadata "/mnt/onboard/kr/" (happyEnv (some (unmarshalBooks none))) =
        [.chdir "/", .removeFile metaLockFile,
          .openFile (calibreMDpath "/mnt/onboard/kr/"),
          .fbPrintOp "No metadata to update!"]) ∧
    (∀ elems, (none : Option Jval) = some (.jarr elems) → elems ≠ [] →
      MetaOp.usbPlug ∈
        updateMetadata "/mnt/onboard/kr/" (happyEnv (some (unmarshalBooks none)))) :=
  updateMetadata_unmarshal_error_paths "/mnt/onboard/kr/"
    (happyEnv (some (unmarshalBooks none))) none rfl rfl

/-! ## Metadata phase: the database update contract -/


/-- The button-loop operations contain no row update. -/
theorem metaScanOps_no_sqlExec (n : Nat) :
    (metaScanOps n).filter (fun op => op.isSqlExec) = [] := by
  rw [metaScanOps]
  induction n with
  | zero => rfl
  | succ n ih =>
    rw [List.range_succ, List.flatMap_append, List.filter_append, ih]
    simp only [List.nil_append, List.flatMap_cons, List.flatMap_nil, List.append_nil]
    split <;> rfl

/-- The row updates of the per-record loop are exactly `rowUpdate` of
each record, in order: one per record with a non-empty `lpath`, none for
a record with an empty `lpath`, whatever the per-row results are. -/
theorem execOps_sqlExecs (f : Nat → Bool) :
    ∀ (i : Nat) (l : List BookMetadata),
      (execOps f i l).filter (fun op => op.isSqlExec) = l.filterMap rowUpdate := by
  intro i l
  induction l generalizing i with
  | nil => rfl
  | cons m rest ih =>
    rw [execOps, List.filter_append, ih (i + 1), List.filterMap_cons]
    by_cases h : m.lpath = ""
    · simp [rowUpdate, h]
    · simp only [rowUpdate, h, if_neg, ite_false, List.filter_cons]
      simp [MetaOp.isSqlExec, h]

/-- C6: in a Metadata Phase run that reaches the database (sidecar opens
and parses to `md`, button pressed, partition unmounted, private mount
and database open and statement preparation succeed), the sequence of
executed `UPDATE content SET Description=?, Series=?, SeriesNumber=?
WHERE ContentID LIKE ?` statements is exactly one execution per record
with a non-empty `lpath` — with parameters comments, series, serialized
seriesIndex and "%"+lpath, in that order — and no execution for a record
with an empty `lpath`; emptiness of the other fields and per-row failures
suppress nothing. -/
theorem updateMetadata_sql_update_contract (ksDir : String) (env : MetaEnv)
    (md : List BookMetadata) (n k : Nat)
    (hopen : env.mdFileOpens = true) (hparse : env.mdParse = some md)
    (hmd : 0 < md.length)
    (hbtn : buttonScanLoop env.scan 10 = .pressed n)
    (hw1 : waitForUnmount env.unmounted1 10 = .success k)
    (hmount : env.mountOK = true) (hdb : env.dbOpenOK = true)
    (hprep : env.prepareOK = true) :
    (updateMetadata ksDir env).filter (fun op => op.isSqlExec) =
      md.filterMap rowUpdate := by
  rw [updateMetadata, hopen]
  simp only [Bool.not_true, Bool.false_eq_true, if_false, ite_false]
  rw [hparse]
  simp only [Option.getD_some, hmd, if_pos, ite_true, hbtn, hw1]
  rw [updateMetadataMounted, if_pos hmount, hdb]
  simp only [Bool.not_true, Bool.false_eq_true, if_false, ite_false, if_pos hprep,
    ite_true]
  cases h2 : waitForUnmount env.unmounted2 10 with
  | success k2 =>
    simp only [List.filter_cons, List.filter_append, metaScanOps_no_sqlExec,
      execOps_sqlExecs]
    simp [MetaOp.isSqlExec]
  | timeout =>
    simp only [List.filter_cons, List.filter_append, metaScanOps_no_sqlExec,
      execOps_sqlExecs]
    simp [MetaOp.isSqlExec]


/-- C6 (witness): the database contract at a concrete environment. -/
theorem updateMetadata_sql_update_contract_witness :
    (updateMetadata "/mnt/onboard/kr/" (happyEnv (some sampleBooks))).filter
        (fun op => op.isSqlExec) =
      sampleBooks.filterMap rowUpdate :=
  updateMetadata_sql_update_contract "/mnt/onboard/kr/" (happyEnv (some sampleBooks))
    sampleBooks 1 1 rfl rfl (by decide) (by decide) (by decide) rfl rfl rfl

/-! ## Metadata phase: the private-mount release discipline -/

/-- Every operation of the button loop satisfies a predicate holding of
scans and sleeps. -/
theorem metaScanOps_all (P : MetaOp → Bool) (hb : P (.btnScanOp true) = true)
    (hs : P (.sleepMs 500) = true) (n : Nat) : (metaScanOps n).all P = true := by
  rw [metaScanOps, List.all_flatMap, List.all_eq_true]
  intro i _
  split <;> simp [hb, hs]

/-- A Metadata Phase run that reaches the private mount (the sidecar
opens and parses to a non-empty `md`, the button is pressed, the first
unmount wait succeeds) is the fixed entry prefix followed by the mounted
section. -/
theorem updateMetadata_reaches_mount (ksDir : String) (env : MetaEnv)
    (md : List BookMetadata) (n k : Nat)
    (hopen : env.mdFileOpens = true) (hparse : env.mdParse = some md)
    (hmd : 0 < md.length)
    (hbtn : buttonScanLoop env.scan 10 = .pressed n)
    (hw1 : waitForUnmount env.unmounted1 10 = .success k) :
    updateMetadata ksDir env =
      .chdir "/" :: .removeFile metaLockFile :: .openFile (calibreMDpath ksDir) ::
        .fbPrintOp "Updating Metadata..." :: .usbPlug ::
          (metaScanOps n ++
            .waitUnmountOp (.success k) :: .mkdirAll tmpOnboardMnt ::
              updateMetadataMounted env md) := by
  rw [updateMetadata, hopen]
  simp only [Bool.not_true, Bool.false_eq_true, if_false, ite_false]
  rw [hparse]
  simp only [Option.getD_some, hmd, if_pos, ite_true, hbtn, hw1]

/-- C2 (amended): when the Metadata Phase's private mount of the internal
device succeeds, the phase unmounts the private mount point on every exit
path out of the database-update steps **except** the path where opening
the embedded database fails: on that path it returns with the partition
still privately mounted (no unmount operation appears anywhere in the
run). -/
theorem updateMetadata_unmount_paths (ksDir : String) (env : MetaEnv)
    (md : List BookMetadata) (n k : Nat)
    (hopen : env.mdFileOpens = true) (hparse : env.mdParse = some md)
    (hmd : 0 < md.length)
    (hbtn : buttonScanLoop env.scan 10 = .pressed n)
    (hw1 : waitForUnmount env.unmounted1 10 = .success k)
    (hmount : env.mountOK = true) :
    (env.dbOpenOK = true →
      MetaOp.unmountOp tmpOnboardMnt ∈ updateMetadata ksDir env) ∧
    (env.dbOpenOK = false →
      (updateMetadata ksDir env).all (fun op => !op.isUnmountOp) = true) := by
  rw [updateMetadata_reaches_mount ksDir env md n k hopen hparse hmd hbtn hw1]
  constructor
  · intro hdb
    rw [updateMetadataMounted, if_pos hmount, hdb]
    simp only [Bool.not_true, Bool.false_eq_true, if_false, ite_false]
    cases h2 : waitForUnmount env.unmounted2 10 with
    | success k2 =>
      cases hp : env.prepareOK <;>
        simp [hp, List.mem_append, List.mem_cons]
    | timeout =>
      cases hp : env.prepareOK <;>
        simp [hp, List.mem_append, List.mem_cons]
  · intro hdb
    rw [updateMetadataMounted, if_pos hmount, hdb]
    simp only [Bool.not_false, if_true, ite_true]
    simp only [List.all_cons, List.all_append, Bool.and_eq_true]
    exact ⟨rfl, rfl, rfl, rfl, rfl, metaScanOps_all _ rfl rfl n, rfl, rfl, rfl, rfl, rfl, rfl⟩

/-- C2 (witness): the amended statement at a concrete environment where
the database opens; the unmount is in the trace. -/
theorem updateMetadata_unmount_paths_witness :
    ((happyEnv (some sampleBooks)).dbOpenOK = true →
      MetaOp.unmountOp tmpOnboardMnt ∈
        updateMetadata "/mnt/onboard/kr/" (happyEnv (some sampleBooks))) ∧
    ((happyEnv (some sampleBooks)).dbOpenOK = false →
      (updateMetadata "/mnt/onboard/kr/" (happyEnv (some sampleBooks))).all
        (fun op => !op.isUnmountOp) = true) :=
  updateMetadata_unmount_paths "/mnt/onboard/kr/" (happyEnv (some sampleBooks))
    sampleBooks 1 1 rfl rfl (by decide) (by decide) (by decide) rfl


/-- C2 (counterexample): a run in which the private mount succeeds and
`sql.Open` then fails performs the mount but **no** unmount: krclone.go
lines 236-239 return straight out of the mounted section, skipping the
`syscall.Unmount` at line 264, so the claim's "unmounts on every exit
path, including the database-open failure" is false.  The full trace
shows the run ends right after printing the database error. -/
theorem updateMetadata_mount_leak_on_db_open_failure :
    updateMetadata "/mnt/onboard/kr/" envDbOpenFails =
      [.chdir "/", .removeFile metaLockFile,
        .openFile (calibreMDpath "/mnt/onboard/kr/"),
        .fbPrintOp "Updating Metadata...", .usbPlug, .btnScanOp true,
        .waitUnmountOp (.success 1), .mkdirAll tmpOnboardMnt,
        .mountOp internalMemoryDev tmpOnboardMnt "vfat", .dbOpenOp koboDSN,
        .fbPrintOp "unable to open database file"] ∧
    ((updateMetadata "/mnt/onboard/kr/" envDbOpenFails).filter
        (fun op => op.isMountOp)).length = 1 ∧
    ((updateMetadata "/mnt/onboard/kr/" envDbOpenFails).filter
        (fun op => op.isUnmountOp)).length = 0 := by
  decide

/-! ## Status reporter: the rolling window -/

/-- One `fbInk` step keeps the buffer length between 1 and 5. -/
theorem fbInkStep_length (st : FbInkState) (d : FbinkData)
    (h1 : 1 ≤ st.buffer.length) (h5 : st.buffer.length ≤ 5) :
    1 ≤ (fbInkStep st d).buffer.length ∧ (fbInkStep st d).buffer.length ≤ 5 := by
  rw [fbInkStep]
  cases hbs : d.buttonScan
  · cases hup : d.updateLastStr
    · simp only [Bool.not_false, if_true, ite_true]
      by_cases hlen : 5 ≤ st.buffer.length
      · rw [if_pos hlen]
        simp only [List.length_append, List.length_tail, List.length_cons,
          List.length_nil]
        omega
      · rw [if_neg hlen]
        simp only [List.length_append, List.length_cons, List.length_nil]
        omega
    · simp only [Bool.not_false, Bool.not_true, if_true, Bool.false_eq_true, if_false,
        ite_true, ite_false, List.length_append, List.length_dropLast,
        List.length_cons, List.length_nil]
      omega
  · simpa using ⟨h1, h5⟩

/-- The `fbInk` buffer-length invariant is preserved by any message
sequence. -/
theorem fbInkFold_length (msgs : List FbinkData) :
    ∀ (st : FbInkState), 1 ≤ st.buffer.length → st.buffer.length ≤ 5 →
      1 ≤ (msgs.foldl fbInkStep st).buffer.length ∧
        (msgs.foldl fbInkStep st).buffer.length ≤ 5 := by
  induction msgs with
  | nil => intro st h1 h5; exact ⟨h1, h5⟩
  | cons d rest ih =>
    intro st h1 h5
    rw [List.foldl_cons]
    obtain ⟨g1, g5⟩ := fbInkStep_length st d h1 h5
    exact ih (fbInkStep st d) g1 g5

/-- A replace-last-line message never changes the length of a non-empty
buffer: it drops the back line and pushes the rewritten one. -/
theorem fbInkStep_replace_length (st : FbInkState) (d : FbinkData)
    (h1 : 1 ≤ st.buffer.length) (hbs : d.buttonScan = false)
    (hup : d.updateLastStr = true) :
    (fbInkStep st d).buffer.length = st.buffer.length := by
  rw [fbInkStep, hbs, hup]
  simp only [Bool.not_false, Bool.not_true, if_true, Bool.false_eq_true, if_false,
    ite_true, ite_false, List.length_append, List.length_dropLast, List.length_cons,
    List.length_nil]
  omega

/-- The append-only `fbPrint` buffer of krclone.go also never exceeds 5
lines. -/
theorem fbPrintFold_length (msgs : List String) :
    ∀ (buf : List String), buf.length ≤ 5 →
      (msgs.foldl fbPrintBuffer buf).length ≤ 5 := by
  induction msgs with
  | nil => intro buf h; exact h
  | cons s rest ih =>
    intro buf h
    rw [List.foldl_cons]
    refine ih (fbPrintBuffer buf s) ?_
    rw [fbPrintBuffer]
    by_cases hlen : 5 ≤ buf.length
    · rw [if_pos hlen]
      simp only [List.length_append, List.length_tail, List.length_cons,
        List.length_nil]
      omega
    · rw [if_neg hlen]
      simp only [List.length_append, List.length_cons, List.length_nil]
      omega

/-- C8: after any sequence of messages the status display's rolling
buffer holds at most 5 lines — in the channel-driven `fbInk` task as
well as in the direct `fbPrint` of krclone.go (whose global buffer starts
empty) — and a replace-last-line message never increases (indeed never
changes) the buffer length. -/
theorem statusBuffer_window (msgs : List FbinkData) (d : FbinkData)
    (appended : List String) :
    (fbInkRun msgs).buffer.length ≤ 5 ∧
    (appended.foldl fbPrintBuffer []).length ≤ 5 ∧
    (d.buttonScan = false → d.updateLastStr = true →
      (fbInkStep (fbInkRun msgs) d).buffer.length = (fbInkRun msgs).buffer.length) := by
  have hinv := fbInkFold_length msgs fbInkInit (by decide) (by decide)
  refine ⟨hinv.2, fbPrintFold_length appended [] (by decide), ?_⟩
  intro hbs hup
  exact fbInkStep_replace_length (fbInkRun msgs) d hinv.1 hbs hup

/-! ## Series-index serialization -/

/-- C9: the series index reaches the SQL update parameter as the minimal
decimal string: the value 3.0 serializes as "3" (no trailing ".0") and
the value 2.5 (the rational 5/2) serializes as "2.5", both in the
serialized-index position of the executed row update. -/
theorem seriesIndex_serialization :
    formatFloat 3 = "3" ∧ formatFloat (mkRat 5 2) = "2.5" ∧
    (mkRat 5 2 : ℚ) = 2.5 ∧
    execOps (fun _ => true) 0
        [⟨"one.epub", "SF", 3, "c1"⟩, ⟨"two.epub", "SF", mkRat 5 2, "c2"⟩] =
      [.sqlExec "c1" "SF" "3" "%one.epub", .fbPrintOp "MD Success",
        .sqlExec "c2" "SF" "2.5" "%two.epub", .fbPrintOp "MD Success"] := by
  refine ⟨by decide, by decide, ?_, by decide⟩
  rw [Rat.mkRat_eq_div]
  norm_num

end KRclone
